import Mathlib

/-!
Verification of the field-to-element resolution and style-preserving
mutation core of the `ppt_master` repository
(`create_template/ppt_common.py` and `create_template/create_template.py`).

Python strings are modelled as `List Char`; Python `dict`-based records as
structures with `Option` fields; the document object model (shapes,
paragraphs, runs, table cells) as an inductive tree.  Machine floats do not
occur in the matching logic (positions are percentages, modelled as `ℚ`).
Python exceptions are modelled with `Except`, with a single injection point
(`mutateRaises`) standing for a document-layer failure during the
clear/rewrite phase of a text mutation.
-/

set_option maxHeartbeats 1600000

/-- Python strings are modelled as lists of characters. -/
abbrev Str := List Char

/-- Model of Python `str.isspace` / whitespace for `strip` and `split`
(the ASCII whitespace characters, which are the ones occurring in the data). -/
def pyIsSpace (c : Char) : Bool :=
  c = ' ' || c = Char.ofNat 9 || c = Char.ofNat 10 || c = Char.ofNat 13 ||
  c = Char.ofNat 11 || c = Char.ofNat 12

/-- Model of Python `str.lower` on a single character (ASCII case fold). -/
def pyToLower (c : Char) : Char :=
  if 'A' ≤ c ∧ c ≤ 'Z' then Char.ofNat (c.toNat + 32) else c

/-- Python `s.lower()`. -/
def pyLower (s : Str) : Str := s.map pyToLower

/-- Python `''.join(s.split())`: splitting on whitespace and joining with the
empty separator removes every whitespace character. -/
def removeWhitespace (s : Str) : Str := s.filter (fun c => !pyIsSpace c)

/-- `''.join(s.lower().split())` — the normalization used throughout the
resolution code. -/
def pyNormalize (s : Str) : Str := removeWhitespace (pyLower s)

/-- Python `s.strip()`. -/
def pyStrip (s : Str) : Str :=
  ((s.dropWhile pyIsSpace).reverse.dropWhile pyIsSpace).reverse

/-- Python `str.isdigit` on a single character (decimal digits). -/
def pyIsDigit (c : Char) : Bool := '0' ≤ c ∧ c ≤ '9'

/-- Python `s.isdigit()`: non-empty and all digits. -/
def pyStrIsDigit (s : Str) : Bool := !s.isEmpty && s.all pyIsDigit

/-- Python `str.isalpha` on a single character (ASCII letters; the Korean
ranges the source additionally tests are handled by `isHangul`). -/
def pyIsAlpha (c : Char) : Bool :=
  ('a' ≤ c ∧ c ≤ 'z') || ('A' ≤ c ∧ c ≤ 'Z')

/-- The two Korean character ranges tested in `is_special_content`:
`'ㄱ' <= c <= 'ㆎ'` or `'가' <= c <= '힣'`. -/
def isHangul (c : Char) : Bool :=
  (12593 ≤ c.toNat && c.toNat ≤ 12686) || (44032 ≤ c.toNat && c.toNat ≤ 55203)

/-- The `special_chars` set of `is_special_content`
(`'!@#$%^&*()_+-=[]{}|\;:\'",.<>/?`~・×÷©®™℠℗℮℅℆℄℀℁℃℉№℡™'`),
given by code points. -/
def specialChars : List Char :=
  List.map Char.ofNat
    [33, 64, 35, 36, 37, 94, 38, 42, 40, 41, 95, 43, 45, 61, 91, 93, 123,
     125, 124, 92, 59, 58, 39, 34, 44, 46, 60, 62, 47, 63, 96, 126, 12539,
     215, 247, 169, 174, 8482, 8480, 8471, 8494, 8453, 8454, 8452, 8448,
     8449, 8451, 8457, 8470, 8481]

/-- `ppt_common.is_special_content`, translated clause by clause. -/
def isSpecialContent (text : Str) : Bool :=
  let t := pyStrip text
  if t.isEmpty then false
  else if pyStrIsDigit t then true
  else if t.length < 3 then true
  else if t.all (fun c => specialChars.contains c || pyIsSpace c) then true
  else if !t.any (fun c => pyIsAlpha c || isHangul c) then true
  else false

/-- Exact-rational model of the Python float values appearing in the
position logic: a numerator/denominator pair with positive denominator
maintained by the smart constructors.  Kernel-computable, unlike
Mathlib's `ℚ` instances. -/
structure PyQ where
  num : Int
  den : Int
  deriving DecidableEq

/-- Embed an integer (an EMU length or a literal like `100`). -/
def PyQ.ofInt (n : Int) : PyQ := ⟨n, 1⟩

/-- Python true division `a / b` (sign normalized into the numerator). -/
def PyQ.div (a b : PyQ) : PyQ :=
  let n := a.num * b.den
  let d := a.den * b.num
  if d < 0 then ⟨-n, -d⟩ else ⟨n, d⟩

/-- Multiplication (used for `* 100`). -/
def PyQ.mul (a b : PyQ) : PyQ := ⟨a.num * b.num, a.den * b.den⟩

/-- Subtraction (used to state "positions differ by less than ..."). -/
def PyQ.sub (a b : PyQ) : PyQ := ⟨a.num * b.den - b.num * a.den, a.den * b.den⟩

/-- `a <= b` for positive denominators. -/
def PyQ.le (a b : PyQ) : Bool := a.num * b.den ≤ b.num * a.den

/-- `a < b` for positive denominators. -/
def PyQ.lt (a b : PyQ) : Bool := a.num * b.den < b.num * a.den

/-- Floor (floor division of the components). -/
def PyQ.floor (q : PyQ) : Int := Int.fdiv q.num q.den

/-- Model of Python 3 `round` on an exact value: round half to even. -/
def pyRound (q : PyQ) : Int :=
  let f := q.floor
  let r := q.num - f * q.den
  if 2 * r < q.den then f
  else if q.den < 2 * r then f + 1
  else if f % 2 = 0 then f else f + 1

/-- Python `str(i)` for an integer. -/
def intToStr (i : Int) : Str :=
  if i < 0 then '-' :: Nat.toDigits 10 i.natAbs else Nat.toDigits 10 i.toNat

/-- The position record handed to `generate_position_key`
(`left_percent` / `top_percent`, percentages of the slide dimensions). -/
structure Pos2 where
  leftPercent : PyQ
  topPercent : PyQ
  deriving DecidableEq

/-- `ppt_common.generate_position_key`: special content is its own key,
otherwise the position is quantized to a 5-percent grid with Python `round`
and appended as `__pos_<left>_<top>`. -/
def generatePositionKey (text : Str) (position : Pos2) : Str :=
  if isSpecialContent text then text
  else
    let leftGroup := pyRound (position.leftPercent.div (PyQ.ofInt 5)) * 5
    let topGroup := pyRound (position.topPercent.div (PyQ.ofInt 5)) * 5
    text ++ ('_' :: '_' :: 'p' :: 'o' :: 's' :: '_' :: intToStr leftGroup)
      ++ ('_' :: intToStr topGroup)

/-- Longest decimal-digit suffix of a string (helper for the regex
`_(\d+)$` of `extract_count_from_field_name`). -/
def digitSuffix (s : Str) : Str :=
  (s.reverse.takeWhile pyIsDigit).reverse

/-- Decimal value of a digit string (Python `int(...)` on the regex group). -/
def digitsToNat (s : Str) : Nat :=
  s.foldl (fun acc c => acc * 10 + (c.toNat - 48)) 0

/-- `re.search(r'_(\d+)$', f)` succeeds iff `f` has a non-empty digit suffix
preceded by an underscore. -/
def endsWithOrdinalSuffix (s : Str) : Bool :=
  let ds := digitSuffix s
  !ds.isEmpty && (s.take (s.length - ds.length)).getLast? = some '_'

/-- `ppt_common.extract_count_from_field_name`: strip a trailing `_<n>`
ordinal suffix, returning the clean name, its normalization and the expected
count (1 when no suffix is present). -/
def extractCountFromFieldName (fieldName : Str) : Str × Str × Nat :=
  let ds := digitSuffix fieldName
  if !ds.isEmpty && (fieldName.take (fieldName.length - ds.length)).getLast? = some '_' then
    let clean := fieldName.take (fieldName.length - ds.length - 1)
    (clean, pyNormalize clean, digitsToNat ds)
  else
    (fieldName, pyNormalize fieldName, 1)

/-!  ## Document object model  -/

/-- Font colour of a run, a closed sum over the representations the source
probes: a direct RGB value, a theme-colour reference, the PRESET colour type
(`type == 102`), some other colour type, or no colour set at all. -/
inductive ColorM
  | noColor
  | rgbv (v : Nat)
  | theme (t : Nat)
  | preset
  | other (ty : Nat)
  deriving DecidableEq

/-- Font of a run.  `none` models a Python `None` attribute value. -/
structure FontM where
  name : Option Str
  size : Option Nat
  bold : Option Bool
  italic : Option Bool
  color : ColorM
  deriving DecidableEq

/-- A run: a piece of text with one font. -/
structure RunM where
  text : Str
  font : FontM
  deriving DecidableEq

/-- A paragraph is a list of runs; `paragraph.text` concatenates them. -/
structure ParaM where
  runs : List RunM
  deriving DecidableEq

/-- `paragraph.text`. -/
def ParaM.text (p : ParaM) : Str := (p.runs.map RunM.text).flatten

/-- A text frame.  `mutateRaises` is the model's single failure-injection
point: it stands for a document-layer exception raised while clearing and
rewriting this frame (the operation guarded by `try` in both versions of
`change_text_to`). -/
structure TextFrameM where
  paras : List ParaM
  mutateRaises : Bool
  deriving DecidableEq

/-- `"\n".join([p.text.strip() for p in tf.paragraphs if p.text.strip()])`
— the text-extraction expression repeated throughout the source. -/
def tfJoinedText (tf : TextFrameM) : Str :=
  List.intercalate [Char.ofNat 10]
    ((tf.paras.map (fun p => pyStrip p.text)).filter (fun t => !t.isEmpty))

/-- Position and extent of a shape (EMU values; percentages are computed
from them exactly as the source divides by the slide dimensions). -/
structure Dims where
  left : PyQ
  top : PyQ
  width : PyQ
  height : PyQ

/-- A shape on a slide: a text-bearing shape (text box / auto shape, i.e.
anything with a `text_frame`), a table (rows of cell text frames), a group
(with its child shapes), or a shape without a text frame (picture etc.). -/
inductive ShapeM
  | textbox (dims : Dims) (tf : TextFrameM)
  | table (dims : Dims) (rows : List (List TextFrameM))
  | group (dims : Dims) (children : List ShapeM)
  | plain (dims : Dims)

/-- The `text_frame` of a shape, when `hasattr(shape, "text_frame")`. -/
def ShapeM.textFrame : ShapeM → Option TextFrameM
  | .textbox _ tf => some tf
  | _ => none

/-- The dimensions of a shape (every python-pptx shape has them). -/
def ShapeM.dims : ShapeM → Dims
  | .textbox d _ => d
  | .table d _ => d
  | .group d _ => d
  | .plain d => d

/-- Observation used to state counterexamples: the joined text of every
top-level text-bearing shape (empty for tables, groups and plain shapes). -/
def shapeText (s : ShapeM) : Str :=
  match s.textFrame with
  | some tf => tfJoinedText tf
  | none => []

/-- Observation: `shapeText` of every shape of a slide. -/
def slideTexts (slide : List ShapeM) : List Str := slide.map shapeText

/-!  ## Search functions of `ppt_common.py`  -/

/-- Substring test (Python `keyword in str`). -/
def strContains (s sub : Str) : Bool :=
  (List.range (s.length + 1)).any (fun i => sub.isPrefixOf (s.drop i))

/-- `ppt_common.is_tag_identifier`: the lower-cased field name contains one
of the keywords `tag`, `label`, `cic_label`, `ui_element`. -/
def isTagIdentifier (fieldName : Str) : Bool :=
  [("tag").toList, ("label").toList, ("cic_label").toList,
   ("ui_element").toList].any (fun kw => strContains (pyLower fieldName) kw)

/-- Loop body of `find_shape_by_text_with_count`: does this shape count as
a textual match for the (clean) field name?  Shapes without a text frame
and shapes with empty joined text are skipped; a shape matches by
normalized equality or by raw case-insensitive equality. -/
def shapeMatchText (s : ShapeM) (fieldName normFieldName : Str) : Bool :=
  match s.textFrame with
  | none => false
  | some tf =>
    let shapeTextV := tfJoinedText tf
    !shapeTextV.isEmpty &&
      (pyNormalize shapeTextV = normFieldName ||
       pyLower shapeTextV = pyLower fieldName)

/-- The counting loop of `find_shape_by_text_with_count`, with the running
`current_count`. -/
def fswcGo : List ShapeM → Str → Str → Nat → Nat → Option ShapeM × Nat
  | [], _, _, _, cur => (none, cur)
  | s :: rest, fieldName, normFieldName, expected, cur =>
    if shapeMatchText s fieldName normFieldName then
      let cur' := cur + 1
      if cur' = expected then (some s, cur')
      else fswcGo rest fieldName normFieldName expected cur'
    else fswcGo rest fieldName normFieldName expected cur

/-- `ppt_common.find_shape_by_text_with_count`. -/
def findShapeByTextWithCount (slide : List ShapeM)
    (fieldName normFieldName : Str) (expectedCount : Nat := 1) :
    Option ShapeM × Nat :=
  fswcGo slide fieldName normFieldName expectedCount 0

/-!  ## `find_tag_element` and its inner Levenshtein distance  -/

/-- Inner loop of the source's `levenshtein_distance`: consumes `s2`
pairwise against the previous row (`p0 = previous_row[j]`,
`p1 = previous_row[j+1]`), carrying the last value appended to
`current_row`. -/
def levStep (c1 : Char) : List Nat → Nat → Str → List Nat
  | p0 :: p1 :: ps, last, c2 :: cs =>
    let v := min (p1 + 1) (min (last + 1) (p0 + (if c1 = c2 then 0 else 1)))
    v :: levStep c1 (p1 :: ps) v cs
  | _, _, _ => []

/-- Outer loop of `levenshtein_distance`: one row per character of `s1`. -/
def levOuter (s2 : Str) : List Nat → Nat → Str → List Nat
  | prev, _, [] => prev
  | prev, i, c1 :: cs =>
    levOuter s2 ((i + 1) :: levStep c1 prev (i + 1) s2) (i + 1) cs

/-- `levenshtein_distance` after the initial swap, for `len s1 ≥ len s2`. -/
def levCore (s1 s2 : Str) : Nat :=
  if s2.length = 0 then s1.length
  else ((levOuter s2 (List.range (s2.length + 1)) 0 s1).getLast?).getD 0

/-- The `levenshtein_distance` helper defined inside `find_tag_element`
(the recursive swap is unfolded into `levCore` on ordered arguments). -/
def levenshteinDistance (s1 s2 : Str) : Nat :=
  if s1.length < s2.length then levCore s2 s1 else levCore s1 s2

example : levenshteinDistance ("abc").toList ("tag").toList = 3 := by decide

example : levenshteinDistance ("kitten").toList ("sitting").toList = 3 := by
  decide

/-- `re.match(r'(tag|label|cic|ui)[_\-\s]?\d*', s)`: since the separator and
the digits are optional, the anchored match succeeds exactly when `s` starts
with one of the four keywords. -/
def tagPatternMatch (s : Str) : Bool :=
  ("tag").toList.isPrefixOf s || ("label").toList.isPrefixOf s ||
  ("cic").toList.isPrefixOf s || ("ui").toList.isPrefixOf s

/-- Body of the first loop of `find_tag_element` (exact normalized match
among shapes whose joined text has length at most `MAX_TAG_LENGTH = 15`). -/
def tagExactBody (normFieldName : Str) (s : ShapeM) : Option ShapeM :=
  match s.textFrame with
  | none => none
  | some tf =>
    let shapeTextV := tfJoinedText tf
    if shapeTextV.isEmpty || shapeTextV.length > 15 then none
    else if pyNormalize shapeTextV = normFieldName then some s
    else none

/-- First loop of `find_tag_element`. -/
def tagExactLoop (slide : List ShapeM) (normFieldName : Str) :
    Option ShapeM :=
  slide.findSome? (tagExactBody normFieldName)

/-- Body of the second loop of `find_tag_element`: among small shapes
(width ≤ 20 % and height ≤ 10 % of the slide), first the keyword-pattern
branch, then the Levenshtein branch for normalized texts of length ≤ 10
with distance ≤ 3. -/
def tagFuzzyBody (normFieldName : Str) (slideWidth slideHeight : PyQ)
    (s : ShapeM) : Option ShapeM :=
  match s.textFrame with
  | none => none
  | some tf =>
    let shapeTextV := tfJoinedText tf
    if shapeTextV.isEmpty || shapeTextV.length > 15 then none
    else
      let normShapeText := pyNormalize shapeTextV
      let widthPercent := (s.dims.width.div slideWidth).mul (PyQ.ofInt 100)
      let heightPercent := (s.dims.height.div slideHeight).mul (PyQ.ofInt 100)
      let isSmall := widthPercent.le (PyQ.ofInt 20) &&
        heightPercent.le (PyQ.ofInt 10)
      if isSmall &&
          (tagPatternMatch normShapeText || tagPatternMatch normFieldName) then
        some s
      else if isSmall && normShapeText.length ≤ 10 &&
          normFieldName.length ≤ 10 &&
          levenshteinDistance normShapeText normFieldName ≤ 3 then
        some s
      else none

/-- Second loop of `find_tag_element`. -/
def tagFuzzyLoop (slide : List ShapeM) (normFieldName : Str)
    (slideWidth slideHeight : PyQ) : Option ShapeM :=
  slide.findSome? (tagFuzzyBody normFieldName slideWidth slideHeight)

/-- `ppt_common.find_tag_element`. -/
def findTagElement (slide : List ShapeM) (normFieldName : Str)
    (slideWidth slideHeight : PyQ) : Option ShapeM :=
  match tagExactLoop slide normFieldName with
  | some s => some s
  | none => tagFuzzyLoop slide normFieldName slideWidth slideHeight

/-!  ## Style-preserving mutation: `ppt_common.change_text_to`  -/

/-- `ppt_common.safe_get_font_color`: an `(r, g, b)` triple only when the
run has non-blank text and its colour carries a direct, truthy RGB value
(`RGBColor` is an `int` subclass, so pure black `0x000000` is falsy); theme
and other colour kinds yield `None`.  `RGBColor` values are below `2^24`,
so the hex-string split is the arithmetic decomposition. -/
def safeGetFontColor (run : RunM) : Option (Nat × Nat × Nat) :=
  if run.text.isEmpty || (pyStrip run.text).isEmpty then none
  else
    match run.font.color with
    | ColorM.rgbv v =>
      if v ≠ 0 then some (v / 65536, v / 256 % 256, v % 256) else none
    | _ => none

/-- First run containing non-whitespace text, scanning paragraphs in order
(the style-capture loop shared by both versions of `change_text_to`). -/
def firstTextyRun (tf : TextFrameM) : Option RunM :=
  tf.paras.findSome?
    (fun p => p.runs.find?
      (fun r => !r.text.isEmpty && !(pyStrip r.text).isEmpty))

/-- The `font_props` dictionary of `ppt_common.change_text_to`. -/
structure PcProps where
  name : Option Str
  size : Option Nat
  bold : Option Bool
  italic : Option Bool
  color : Option (Nat × Nat × Nat)
  deriving DecidableEq

/-- Style capture of `ppt_common.change_text_to`: properties of the first
non-blank run, all `None` when no such run exists (`setdefault`). -/
def pcCaptureProps (tf : TextFrameM) : PcProps :=
  match firstTextyRun tf with
  | some r =>
    ⟨r.font.name, r.font.size, r.font.bold, r.font.italic,
      safeGetFontColor r⟩
  | none => ⟨none, none, none, none, none⟩

/-- Python truthiness filter for an optional string (`if font_props['name']:`). -/
def truthyStr : Option Str → Option Str
  | some s => if s.isEmpty then none else some s
  | none => none

/-- Python truthiness filter for an optional number (`if font_props['size']:`). -/
def truthyNat : Option Nat → Option Nat
  | some n => if n = 0 then none else some n
  | none => none

/-- Style restoration of `ppt_common.change_text_to` onto the fresh run:
name/size only when truthy, bold/italic only when not `None`, and the
colour with caller-override priority — when neither an override nor a
captured colour is available, no colour is set at all. -/
def pcRestoredFont (props : PcProps) (fontColor : Option (Nat × Nat × Nat)) :
    FontM :=
  { name := truthyStr props.name
    size := truthyNat props.size
    bold := props.bold
    italic := props.italic
    color :=
      match (match fontColor with
             | some c => some c
             | none => props.color) with
      | some (r, g, b) => ColorM.rgbv (r * 65536 + g * 256 + b)
      | none => ColorM.noColor }

/-- Body of `ppt_common.change_text_to` inside its `try`: early normal
return when the frame has no paragraphs, an injected failure when the
document layer raises during clear/rewrite, otherwise the rebuilt frame
with a single paragraph holding a single restored run. -/
def pcBody (tf : TextFrameM) (newText : Str)
    (fontColor : Option (Nat × Nat × Nat)) : Except Unit TextFrameM :=
  if tf.paras.isEmpty then Except.ok tf
  else if tf.mutateRaises then Except.error ()
  else
    Except.ok
      ⟨[⟨[⟨newText, pcRestoredFont (pcCaptureProps tf) fontColor⟩]⟩],
        tf.mutateRaises⟩

/-- `ppt_common.change_text_to`: the outer handler logs the exception and
re-raises (`raise`), so a body failure propagates to the caller. -/
def pcChangeTextTo (tf : TextFrameM) (newText : Str)
    (fontColor : Option (Nat × Nat × Nat) := none) : Except Unit TextFrameM :=
  match pcBody tf newText fontColor with
  | Except.ok r => Except.ok r
  | Except.error e => Except.error e

/-!  ## Style-preserving mutation: `create_template.change_text_to`  -/

/-- The colour-related entries of the `font_props` dictionary of
`create_template.change_text_to`. -/
structure CtColorProps where
  colorRgb : Option Nat
  themeColor : Option Nat
  presetColor : Bool
  deriving DecidableEq

/-- Colour capture chain of `create_template.change_text_to`: a truthy
direct RGB is stored as `color_rgb`; a truthy theme reference as
`theme_color`; colour type 102 sets the PRESET marker; every other case
(falsy RGB, falsy theme, unknown type, no colour type) stores black
`0x000000` as `color_rgb`. -/
def ctCaptureColor : ColorM → CtColorProps
  | ColorM.rgbv v => if v ≠ 0 then ⟨some v, none, false⟩ else ⟨some 0, none, false⟩
  | ColorM.theme t => if t ≠ 0 then ⟨none, some t, false⟩ else ⟨some 0, none, false⟩
  | ColorM.preset => ⟨none, none, true⟩
  | ColorM.other ty => if ty = 102 then ⟨none, none, true⟩ else ⟨some 0, none, false⟩
  | ColorM.noColor => ⟨some 0, none, false⟩

/-- The `font_props` dictionary of `create_template.change_text_to`. -/
structure CtProps where
  name : Option Str
  size : Option Nat
  bold : Option Bool
  italic : Option Bool
  color : CtColorProps
  deriving DecidableEq

/-- Style capture of `create_template.change_text_to`: first non-blank run
when one exists; otherwise the first run of the first paragraph with the
colour forced to black; otherwise black alone. -/
def ctCaptureProps (tf : TextFrameM) : CtProps :=
  match firstTextyRun tf with
  | some r =>
    ⟨r.font.name, r.font.size, r.font.bold, r.font.italic,
      ctCaptureColor r.font.color⟩
  | none =>
    match tf.paras.head?.bind (fun p => p.runs.head?) with
    | some r0 =>
      ⟨r0.font.name, r0.font.size, r0.font.bold, r0.font.italic,
        ⟨some 0, none, false⟩⟩
    | none => ⟨none, none, none, none, ⟨some 0, none, false⟩⟩

/-- Colour restoration chain of `create_template.change_text_to`: truthy
`color_rgb` wins, then truthy `theme_color`, then the PRESET marker
degrades to black, and with no colour information at all the colour is
also set to black. -/
def ctRestoreColor (cp : CtColorProps) : ColorM :=
  if cp.colorRgb.getD 0 ≠ 0 then ColorM.rgbv (cp.colorRgb.getD 0)
  else if cp.themeColor.getD 0 ≠ 0 then ColorM.theme (cp.themeColor.getD 0)
  else if cp.presetColor then ColorM.rgbv 0
  else ColorM.rgbv 0

/-- Style restoration of `create_template.change_text_to`. -/
def ctRestoredFont (props : CtProps) : FontM :=
  { name := truthyStr props.name
    size := truthyNat props.size
    bold := props.bold
    italic := props.italic
    color := ctRestoreColor props.color }

/-- Body of `create_template.change_text_to` inside its `try`. -/
def ctBody (tf : TextFrameM) (newText : Str) : Except Unit TextFrameM :=
  if tf.paras.isEmpty then Except.ok tf
  else if tf.mutateRaises then Except.error ()
  else
    Except.ok ⟨[⟨[⟨newText, ctRestoredFont (ctCaptureProps tf)⟩]⟩],
      tf.mutateRaises⟩

/-- `create_template.change_text_to`: the outer handler logs the exception
and swallows it — the function returns normally either way.  On the
injected failure nothing has been written yet, so the frame is unchanged. -/
def ctChangeTextToE (tf : TextFrameM) (newText : Str) :
    Except Unit TextFrameM :=
  match ctBody tf newText with
  | Except.ok r => Except.ok r
  | Except.error _ => Except.ok tf

/-- Total version of `create_template.change_text_to`, used by the
resolution tiers when they mutate a matched element. -/
def ctChangeText (tf : TextFrameM) (newText : Str) : TextFrameM :=
  match ctChangeTextToE tf newText with
  | Except.ok r => r
  | Except.error _ => tf

/-!  ## Resolution tiers of `create_template.update_slide`  -/

/-- The `table_info` record of a field (`{'row': ..., 'col': ...}`, each
key possibly missing). -/
structure TableInfoM where
  row : Option Int
  col : Option Int

/-- Python list indexing: non-negative indices from the front, negative
indices from the back, out-of-range raises (`none`). -/
def pyResolveIdx (n : Nat) (i : Int) : Option Nat :=
  if 0 ≤ i then (if i < (n : Int) then some i.toNat else none)
  else if -i ≤ (n : Int) then some (n - (-i).toNat) else none

/-- `table.columns.count`, modelled as the column count of the grid. -/
def tableColumnsCount (rows : List (List TextFrameM)) : Nat :=
  (rows.head?.map List.length).getD 0

/-- Per-shape body of the loop of `create_template.update_table_cell`:
only tables are considered; `rows.count` / `columns.count` are modelled as
the table's dimensions; the 1-indexed cell lookup `cell(row-1, col-1)`
follows Python list indexing (an out-of-range lookup raises `IndexError`,
which the `except` swallows, continuing the scan); a non-empty cell text
matching the full field name (normalized or raw case-insensitive) is
rewritten and accepted. -/
def tableLoopBody (fieldName content normFieldName : Str) (row col : Int) :
    ShapeM → Option ShapeM
  | ShapeM.table d rows =>
    if row ≤ (rows.length : Int) ∧ col ≤ (tableColumnsCount rows : Int) then
      match pyResolveIdx rows.length (row - 1) with
      | none => none
      | some ri =>
        match rows.get? ri with
        | none => none
        | some rowCells =>
          match pyResolveIdx rowCells.length (col - 1) with
          | none => none
          | some ci =>
            match rowCells.get? ci with
            | none => none
            | some cellTf =>
              let cellText := tfJoinedText cellTf
              if !cellText.isEmpty &&
                  (pyNormalize cellText = normFieldName ||
                   pyLower cellText = pyLower fieldName) then
                some (ShapeM.table d
                  (rows.set ri (rowCells.set ci (ctChangeText cellTf content))))
              else none
    else none
  | _ => none

/-- The scan loop of `update_table_cell`. -/
def updateTableCellGo (fieldName content normFieldName : Str)
    (row col : Int) : List ShapeM → Bool × List ShapeM
  | [] => (false, [])
  | s :: rest =>
    match tableLoopBody fieldName content normFieldName row col s with
    | some s2 => (true, s2 :: rest)
    | none =>
      let r := updateTableCellGo fieldName content normFieldName row col rest
      (r.1, s :: r.2)

/-- `create_template.update_table_cell`: `row`/`col` default to `0` when
the key is missing (`table_info.get('row', 0)`). -/
def updateTableCell (slide : List ShapeM) (fieldName content : Str)
    (tableInfo : TableInfoM) (normFieldName : Str) : Bool × List ShapeM :=
  updateTableCellGo fieldName content normFieldName
    (tableInfo.row.getD 0) (tableInfo.col.getD 0) slide

/-- Per-shape body of `create_template.process_regular_shapes`: groups and
tables are excluded by the shape-type check, shapes without a text frame
and with empty joined text are skipped, and a normalized or raw
case-insensitive match is rewritten. -/
def regularBody (fieldName content normFieldName : Str) :
    ShapeM → Option ShapeM
  | ShapeM.textbox d tf =>
    let shapeTextV := tfJoinedText tf
    if shapeTextV.isEmpty then none
    else if pyNormalize shapeTextV = normFieldName then
      some (ShapeM.textbox d (ctChangeText tf content))
    else if pyLower shapeTextV = pyLower fieldName then
      some (ShapeM.textbox d (ctChangeText tf content))
    else none
  | _ => none

/-- The scan loop of `process_regular_shapes`. -/
def processRegularShapesGo (fieldName content normFieldName : Str) :
    List ShapeM → Bool × List ShapeM
  | [] => (false, [])
  | s :: rest =>
    match regularBody fieldName content normFieldName s with
    | some s2 => (true, s2 :: rest)
    | none =>
      let r := processRegularShapesGo fieldName content normFieldName rest
      (r.1, s :: r.2)

/-- `create_template.process_regular_shapes`. -/
def processRegularShapes (slide : List ShapeM)
    (fieldName content normFieldName : Str) : Bool × List ShapeM :=
  processRegularShapesGo fieldName content normFieldName slide

/-- Per-child body of the inner loop of
`create_template.process_group_shapes`: only direct children with a
`text_frame` are examined — a nested group has no `text_frame`, so it is
skipped, not descended into. -/
def groupChildBody (fieldName content normFieldName : Str) :
    ShapeM → Option ShapeM
  | ShapeM.textbox d tf =>
    let shapeTextV := tfJoinedText tf
    if shapeTextV.isEmpty then none
    else if pyNormalize shapeTextV = normFieldName then
      some (ShapeM.textbox d (ctChangeText tf content))
    else if pyLower shapeTextV = pyLower fieldName then
      some (ShapeM.textbox d (ctChangeText tf content))
    else none
  | _ => none

/-- Inner loop of `process_group_shapes` over the direct children of one
group, returning the children with the first match rewritten. -/
def groupInnerGo (fieldName content normFieldName : Str) :
    List ShapeM → Option (List ShapeM)
  | [] => none
  | ch :: rest =>
    match groupChildBody fieldName content normFieldName ch with
    | some ch2 => some (ch2 :: rest)
    | none =>
      (groupInnerGo fieldName content normFieldName rest).map
        (fun r => ch :: r)

/-- Per-shape body of the outer loop of `process_group_shapes`. -/
def groupLoopBody (fieldName content normFieldName : Str) :
    ShapeM → Option ShapeM
  | ShapeM.group d children =>
    (groupInnerGo fieldName content normFieldName children).map
      (ShapeM.group d)
  | _ => none

/-- The outer scan loop of `process_group_shapes`. -/
def processGroupShapesGo (fieldName content normFieldName : Str) :
    List ShapeM → Bool × List ShapeM
  | [] => (false, [])
  | s :: rest =>
    match groupLoopBody fieldName content normFieldName s with
    | some s2 => (true, s2 :: rest)
    | none =>
      let r := processGroupShapesGo fieldName content normFieldName rest
      (r.1, s :: r.2)

/-- `create_template.process_group_shapes`. -/
def processGroupShapes (slide : List ShapeM)
    (fieldName content normFieldName : Str) : Bool × List ShapeM :=
  processGroupShapesGo fieldName content normFieldName slide

/-- The slide-and-group path of `update_slide` after the table tier:
regular shapes first, then groups (on the untouched slide, since a failed
regular pass mutated nothing). -/
def updateFieldNoTable (slide : List ShapeM)
    (fieldName content normFieldName : Str) : List ShapeM :=
  match processRegularShapes slide fieldName content normFieldName with
  | (true, slide2) => slide2
  | (false, _) => (processGroupShapes slide fieldName content normFieldName).2

/-- The per-field body of `create_template.update_slide`: an (honestly
truthy, i.e. non-empty) `table_info` routes the field to the table tier and
then `continue`s whether or not a cell matched; otherwise the regular tier
runs and, only if it fails, the group tier. -/
def updateField (slide : List ShapeM) (fieldName content : Str)
    (tableInfo : Option TableInfoM) : List ShapeM :=
  let normFieldName := pyNormalize fieldName
  match tableInfo with
  | some ti =>
    if ti.row.isSome || ti.col.isSome then
      (updateTableCell slide fieldName content ti normFieldName).2
    else updateFieldNoTable slide fieldName content normFieldName
  | none => updateFieldNoTable slide fieldName content normFieldName

/-!  ## Generic loop combinator used to characterize the scan loops  -/

/-- Replace the first element on which `f` succeeds, or fail. -/
def firstSome {α : Type} (f : α → Option α) : List α → Option (List α)
  | [] => none
  | x :: xs =>
    match f x with
    | some y => some (y :: xs)
    | none => (firstSome f xs).map (fun r => x :: r)

/-!  ## Claim-side models (used to refute the claims they formalize)  -/

/-- Rewrite the text of the shape at index `i` (identity off-range or on a
shape without a text frame). -/
def mutateAt (slide : List ShapeM) (i : Nat) (content : Str) : List ShapeM :=
  match slide.get? i with
  | some (ShapeM.textbox d tf) =>
    slide.set i (ShapeM.textbox d (ctChangeText tf content))
  | _ => slide

/-- Index form of the first (exact) loop of `find_tag_element`. -/
def tagExactIdx (slide : List ShapeM) (normFieldName : Str) : Option Nat :=
  slide.findIdx? (fun s => (tagExactBody normFieldName s).isSome)

/-- Index form of the second (fuzzy) loop of `find_tag_element`. -/
def tagFuzzyIdx (slide : List ShapeM) (normFieldName : Str)
    (slideWidth slideHeight : PyQ) : Option Nat :=
  slide.findIdx?
    (fun s => (tagFuzzyBody normFieldName slideWidth slideHeight s).isSome)

/-- Index at which `find_tag_element` would return a shape. -/
def findTagIdx (slide : List ShapeM) (normFieldName : Str)
    (slideWidth slideHeight : PyQ) : Option Nat :=
  match tagExactIdx slide normFieldName with
  | some i => some i
  | none => tagFuzzyIdx slide normFieldName slideWidth slideHeight

/-- Modelled from the spec (claim C2, spec §4.4): the four-tier resolution
order asserted there — table tier stopping at first success, then a
tag/label tier via `find_tag_element` for tag-like fields, then the
regular-shape tier, then the group tier.  No function of the repository
implements this flow; `update_slide` is the code's actual flow. -/
def claimFourTierUpdate (slide : List ShapeM) (fieldName content : Str)
    (tableInfo : Option TableInfoM) (slideWidth slideHeight : PyQ) :
    List ShapeM :=
  let n := pyNormalize fieldName
  let tier34 :=
    match processRegularShapes slide fieldName content n with
    | (true, s2) => s2
    | (false, _) => (processGroupShapes slide fieldName content n).2
  let tier234 :=
    if isTagIdentifier fieldName || isTagIdentifier content then
      match findTagIdx slide n slideWidth slideHeight with
      | some i => mutateAt slide i content
      | none => tier34
    else tier34
  match tableInfo with
  | some ti =>
    let r := updateTableCell slide fieldName content ti n
    if r.1 then r.2 else tier234
  | none => tier234

/-- Modelled from the spec (claim C3, spec §4.4 tier 1): scan tables in
document order, compare each in-bounds 1-indexed target cell against the
field's ordinal-stripped normalized name, count the textual matches, and
accept (returning the table's index) only when the counter reaches the
expected occurrence.  No function of the repository implements this
counting variant. -/
def claimTableGo (cleanNorm : Str) (row col : Int) (expected : Nat) :
    List ShapeM → Nat → Nat → Option Nat
  | [], _, _ => none
  | s :: rest, i, cnt =>
    match s with
    | ShapeM.table _ rows =>
      if row ≤ (rows.length : Int) ∧ col ≤ (tableColumnsCount rows : Int) then
        match (do
          let ri ← pyResolveIdx rows.length (row - 1)
          let rowCells ← rows.get? ri
          let ci ← pyResolveIdx rowCells.length (col - 1)
          rowCells.get? ci : Option TextFrameM) with
        | some cellTf =>
          let cellText := tfJoinedText cellTf
          if !cellText.isEmpty && pyNormalize cellText = cleanNorm then
            if cnt + 1 = expected then some i
            else claimTableGo cleanNorm row col expected rest (i + 1) (cnt + 1)
          else claimTableGo cleanNorm row col expected rest (i + 1) cnt
        | none => claimTableGo cleanNorm row col expected rest (i + 1) cnt
      else claimTableGo cleanNorm row col expected rest (i + 1) cnt
    | _ => claimTableGo cleanNorm row col expected rest (i + 1) cnt

/-- Modelled from the spec (claim C3): entry point of the counting table
resolution, with the ordinal stripped from the field name. -/
def claimTableResolveSpec (slide : List ShapeM) (fieldName : Str)
    (row col : Int) : Option Nat :=
  let e := extractCountFromFieldName fieldName
  claimTableGo e.2.1 row col e.2.2 slide 0 0

mutual

/-- Modelled from the spec (claim C4): does this shape, or any descendant
at any nesting depth, carry text matching the field (normalized or raw
case-insensitive)?  The repository's mutation path has no such recursive
walk. -/
def shapeHasDeepMatch (fieldName normFieldName : Str) : ShapeM → Bool
  | ShapeM.textbox _ tf =>
    let t := tfJoinedText tf
    !t.isEmpty &&
      (pyNormalize t = normFieldName || pyLower t = pyLower fieldName)
  | ShapeM.group _ children => listHasDeepMatch fieldName normFieldName children
  | _ => false

/-- Modelled from the spec (claim C4): recursive match search over a list
of shapes. -/
def listHasDeepMatch (fieldName normFieldName : Str) : List ShapeM → Bool
  | [] => false
  | s :: ss =>
    shapeHasDeepMatch fieldName normFieldName s ||
      listHasDeepMatch fieldName normFieldName ss

end

/-!  ## Concrete inputs for counterexamples and witnesses  -/

/-- A font with every attribute `None` and no colour set. -/
def plainFont : FontM := ⟨none, none, none, none, ColorM.noColor⟩

/-- A one-paragraph, one-run text frame with the given text. -/
def mkTf (t : Str) : TextFrameM := ⟨[⟨[⟨t, plainFont⟩]⟩], false⟩

/-- Large dimensions (50 % × 50 % on a 100 × 100 slide). -/
def bigDims : Dims :=
  ⟨PyQ.ofInt 10, PyQ.ofInt 10, PyQ.ofInt 50, PyQ.ofInt 50⟩

/-- Small dimensions (8 % × 5 % on a 100 × 100 slide). -/
def smallDims : Dims :=
  ⟨PyQ.ofInt 1, PyQ.ofInt 1, PyQ.ofInt 8, PyQ.ofInt 5⟩

/-- C2: field name `"tag"`. -/
def c2field : Str := ("tag").toList

/-- C2: replacement content. -/
def c2content : Str := ("X").toList

/-- C2: a 19-character text whose normalization is `"tag"` (too long for
the tag tier's 15-character cut-off, matched by the regular tier). -/
def c2longText : Str := ("t        a        g").toList

/-- C2: slide with the long-text shape first and a short `"tag"` shape
second. -/
def c2slide : List ShapeM :=
  [ShapeM.textbox bigDims (mkTf c2longText),
   ShapeM.textbox smallDims (mkTf (("tag").toList))]

/-- C3: a 1×1 table cell reading `"abc"`. -/
def c3cell : TextFrameM := mkTf (("abc").toList)

/-- C3: slide with two 1×1 tables whose single cells both read `"abc"`. -/
def c3slide : List ShapeM :=
  [ShapeM.table bigDims [[c3cell]], ShapeM.table bigDims [[c3cell]]]

/-- C4: slide holding one group that holds a nested group that holds a
text shape reading `"abc"`. -/
def c4slide : List ShapeM :=
  [ShapeM.group bigDims
    [ShapeM.group bigDims [ShapeM.textbox smallDims (mkTf (("abc").toList))]]]

/-- C5: a frame with one paragraph whose clear/rewrite raises. -/
def c5tf : TextFrameM := ⟨[⟨[⟨("hi").toList, plainFont⟩]⟩], true⟩

/-- C6: a frame whose only run has a theme colour (not reconstructible by
`safe_get_font_color`) and no other styling. -/
def c6tf : TextFrameM :=
  ⟨[⟨[⟨("hi").toList, ⟨none, none, none, none, ColorM.theme 4⟩⟩]⟩], false⟩

/-- C6 witness: a frame whose only run carries a name, size, bold flag and
a direct RGB colour. -/
def c6wtf : TextFrameM :=
  ⟨[⟨[⟨("hi").toList,
      ⟨some (("Arial").toList), some 1800, some true, none,
        ColorM.rgbv 255⟩⟩]⟩], false⟩

/-- C7: non-special text used in both directions. -/
def c7text : Str := ("hello").toList

/-- C9 witness: a 2×2 table whose bottom-right cell reads `"total"`. -/
def c9rows : List (List TextFrameM) :=
  [[mkTf (("a").toList), mkTf (("b").toList)],
   [mkTf (("c").toList), mkTf (("total").toList)]]

/-- C10 witness: a small shape reading `"xyz"`. -/
def c10shape : ShapeM := ShapeM.textbox smallDims (mkTf (("xyz").toList))

example : extractCountFromFieldName ("title_2").toList =
    (("title").toList, ("title").toList, 2) := by decide

example : extractCountFromFieldName ("title").toList =
    (("title").toList, ("title").toList, 1) := by decide

example : isSpecialContent ("hello").toList = false := by decide

example : isSpecialContent ("42").toList = true := by decide

example : isSpecialContent ("  ").toList = false := by decide

example : generatePositionKey ("hello").toList ⟨PyQ.ofInt 2, PyQ.ofInt 0⟩ =
    ("hello__pos_0_0").toList := by decide

example : generatePositionKey ("hello").toList ⟨PyQ.ofInt 3, PyQ.ofInt 0⟩ =
    ("hello__pos_5_0").toList := by decide

/-!  # Theorems  -/

/-- Helper: the `update_table_cell` scan is the first-success rewrite. -/
theorem updateTableCellGo_char (fieldName content normFieldName : Str)
    (row col : Int) (slide : List ShapeM) :
    updateTableCellGo fieldName content normFieldName row col slide =
      match firstSome (tableLoopBody fieldName content normFieldName row col)
          slide with
      | some s2 => (true, s2)
      | none => (false, slide) := by
  induction slide with
  | nil => rfl
  | cons s rest ih =>
    simp only [updateTableCellGo, firstSome]
    cases h : tableLoopBody fieldName content normFieldName row col s with
    | some s2 => rfl
    | none =>
      simp only [ih]
      cases h2 : firstSome
          (tableLoopBody fieldName content normFieldName row col) rest <;>
        simp [h2]

/-- Helper: the `process_regular_shapes` scan is the first-success rewrite. -/
theorem processRegularShapesGo_char (fieldName content normFieldName : Str)
    (slide : List ShapeM) :
    processRegularShapesGo fieldName content normFieldName slide =
      match firstSome (regularBody fieldName content normFieldName) slide with
      | some s2 => (true, s2)
      | none => (false, slide) := by
  induction slide with
  | nil => rfl
  | cons s rest ih =>
    simp only [processRegularShapesGo, firstSome]
    cases h : regularBody fieldName content normFieldName s with
    | some s2 => rfl
    | none =>
      simp only [ih]
      cases h2 : firstSome (regularBody fieldName content normFieldName)
          rest <;> simp [h2]

/-- Helper: the `process_group_shapes` outer scan is the first-success
rewrite. -/
theorem processGroupShapesGo_char (fieldName content normFieldName : Str)
    (slide : List ShapeM) :
    processGroupShapesGo fieldName content normFieldName slide =
      match firstSome (groupLoopBody fieldName content normFieldName) slide with
      | some s2 => (true, s2)
      | none => (false, slide) := by
  induction slide with
  | nil => rfl
  | cons s rest ih =>
    simp only [processGroupShapesGo, firstSome]
    cases h : groupLoopBody fieldName content normFieldName s with
    | some s2 => rfl
    | none =>
      simp only [ih]
      cases h2 : firstSome (groupLoopBody fieldName content normFieldName)
          rest <;> simp [h2]

/-- Helper: the inner per-group scan is the first-success rewrite of the
direct children. -/
theorem groupInnerGo_char (fieldName content normFieldName : Str)
    (children : List ShapeM) :
    groupInnerGo fieldName content normFieldName children =
      firstSome (groupChildBody fieldName content normFieldName) children := by
  induction children with
  | nil => rfl
  | cons ch rest ih =>
    simp only [groupInnerGo, firstSome]
    cases h : groupChildBody fieldName content normFieldName ch with
    | some ch2 => rfl
    | none => simp only [ih]

/-- C2 — counterexample.  The field `"tag"` is tag-like, and the claimed
tag tier (exact normalized match among shapes of text length ≤ 15) would
select the short second shape; the code instead rewrites the long first
shape through the regular tier and leaves the short one untouched, and the
spec-modelled four-tier pipeline produces a different slide. -/
theorem C2_counterexample :
    isTagIdentifier c2field = true ∧
    (tagExactIdx c2slide (pyNormalize c2field)) = some 1 ∧
    slideTexts (updateField c2slide c2field c2content none) =
      [c2content, ("tag").toList] ∧
    slideTexts (claimFourTierUpdate c2slide c2field c2content none
      (PyQ.ofInt 100) (PyQ.ofInt 100)) = [c2longText, c2content] := by
  refine ⟨by decide, by decide, by decide, by decide⟩

/-- C2 — amended.  `update_slide` applies three tiers in order: the table
tier whenever `table_info` is present and truthy (consuming the field
whether or not a cell matched), otherwise the regular slide-level tier
(first normalized or raw case-insensitive match rewritten), otherwise the
group tier; no tag tier is involved. -/
theorem C2_three_tier_order (slide : List ShapeM) (fieldName content : Str)
    (tableInfo : Option TableInfoM) :
    updateField slide fieldName content tableInfo =
      if (tableInfo.map (fun t => t.row.isSome || t.col.isSome)).getD false then
        (updateTableCell slide fieldName content
          (tableInfo.getD ⟨none, none⟩) (pyNormalize fieldName)).2
      else
        match firstSome
            (regularBody fieldName content (pyNormalize fieldName)) slide with
        | some s2 => s2
        | none =>
          match firstSome
              (groupLoopBody fieldName content (pyNormalize fieldName))
              slide with
          | some s2 => s2
          | none => slide := by
  cases tableInfo with
  | some ti =>
    by_cases h : ti.row.isSome || ti.col.isSome
    · simp [updateField, h]
    · simp only [updateField, h, if_false, updateFieldNoTable,
        processRegularShapes, processRegularShapesGo_char,
        processGroupShapes, processGroupShapesGo_char, Option.map_some,
        Option.getD_some]
      cases h1 : firstSome
          (regularBody fieldName content (pyNormalize fieldName)) slide <;>
        cases h2 : firstSome
          (groupLoopBody fieldName content (pyNormalize fieldName)) slide <;>
        simp [h, h1, h2]
  | none =>
    simp only [updateField, updateFieldNoTable, processRegularShapes,
      processRegularShapesGo_char, processGroupShapes,
      processGroupShapesGo_char, Option.map_none, Option.getD_none,
      if_false, Bool.false_eq_true]
    cases h1 : firstSome
        (regularBody fieldName content (pyNormalize fieldName)) slide <;>
      cases h2 : firstSome
        (groupLoopBody fieldName content (pyNormalize fieldName)) slide <;>
      simp [h1, h2]

/-- C3 — counterexample.  For field `"abc_2"` with `table_info
{row: 1, col: 1}` over two 1×1 tables whose cells both read `"abc"`, the
claimed counting resolution accepts the second table (counter = expected
occurrence 2), while `update_table_cell` — which compares against the
unstripped name `"abc_2"` and never counts — matches nothing and reports
failure. -/
theorem C3_counterexample :
    (updateTableCell c3slide (("abc_2").toList) (("Y").toList)
      ⟨some 1, some 1⟩ (pyNormalize (("abc_2").toList))).1 = false ∧
    claimTableResolveSpec c3slide (("abc_2").toList) 1 1 = some 1 := by
  refine ⟨by decide, by decide⟩

/-- C3 — amended.  `update_table_cell` scans the tables in document order
and rewrites the first in-bounds 1-indexed target cell whose non-empty
text equals the *unstripped* field name (normalized or raw
case-insensitive); there is no per-field counter and no ordinal stripping. -/
theorem C3_first_match_table (slide : List ShapeM)
    (fieldName content : Str) (tableInfo : TableInfoM)
    (normFieldName : Str) :
    updateTableCell slide fieldName content tableInfo normFieldName =
      match firstSome (tableLoopBody fieldName content normFieldName
          (tableInfo.row.getD 0) (tableInfo.col.getD 0)) slide with
      | some s2 => (true, s2)
      | none => (false, slide) := by
  simp only [updateTableCell, updateTableCellGo_char]

/-- C4 — counterexample.  A slide whose only match for `"abc"` sits inside
a nested group: the spec-modelled recursive search finds it, but
`process_group_shapes` reports failure — a match inside a nested group is
not found, hence not mutated. -/
theorem C4_counterexample :
    (processGroupShapes c4slide (("abc").toList) (("X").toList)
      (("abc").toList)).1 = false ∧
    listHasDeepMatch (("abc").toList) (("abc").toList) c4slide = true := by
  refine ⟨by decide, by decide⟩

/-- C4 — amended.  The group tier scans top-level groups in document order
and rewrites the first *direct* text-bearing child that matches; a nested
group has no text frame, is never itself a match target, and is not
descended into (no recursion, no ordinal counting). -/
theorem C4_direct_children_only (slide : List ShapeM)
    (fieldName content normFieldName : Str) :
    (processGroupShapes slide fieldName content normFieldName =
      match firstSome (groupLoopBody fieldName content normFieldName)
          slide with
      | some s2 => (true, s2)
      | none => (false, slide)) ∧
    (∀ d children, groupLoopBody fieldName content normFieldName
        (ShapeM.group d children) =
      (firstSome (groupChildBody fieldName content normFieldName)
        children).map (ShapeM.group d)) ∧
    (∀ d children, groupChildBody fieldName content normFieldName
        (ShapeM.group d children) = none) := by
  refine ⟨?_, ?_, ?_⟩
  · simp only [processGroupShapes, processGroupShapesGo_char]
  · intro d children
    simp only [groupLoopBody, groupInnerGo_char]
  · intro d children
    rfl

/-- C5 — counterexample.  On a frame whose clear/rewrite raises,
`ppt_common.change_text_to` logs and re-raises: the exception propagates
to the caller, refuting "never propagates an exception".  The
`create_template` version swallows the same failure. -/
theorem C5_counterexample :
    pcChangeTextTo c5tf (("x").toList) none = Except.error () ∧
    ctChangeTextToE c5tf (("x").toList) = Except.ok c5tf := by
  exact ⟨rfl, rfl⟩

/-- C5 — amended.  `create_template.change_text_to` catches and logs every
exception and returns normally (with no boolean result), so processing of
the remaining fields continues; `ppt_common.change_text_to` logs and
re-raises, returning normally exactly when the frame has no paragraphs
(early return) or no failure occurs during clear/rewrite. -/
theorem C5_exception_containment :
    (∀ tf newText, (ctChangeTextToE tf newText).isOk = true) ∧
    (∀ tf newText fontColor,
      (pcChangeTextTo tf newText fontColor).isOk =
        (tf.paras.isEmpty || !tf.mutateRaises)) := by
  constructor
  · intro tf newText
    simp only [ctChangeTextToE]
    cases h : ctBody tf newText <;> rfl
  · intro tf newText fontColor
    simp only [pcChangeTextTo, pcBody]
    by_cases h1 : tf.paras.isEmpty <;> by_cases h2 : tf.mutateRaises <;>
      simp [h1, h2, Except.isOk, Except.toBool]

/-- C6 — counterexample.  A run whose colour is a theme reference yields no
reconstructible colour for `safe_get_font_color`; with no override either,
`ppt_common.change_text_to` sets no colour at all on the new run — it is
not defaulted to black, refuting the claimed fallback. -/
theorem C6_counterexample :
    pcChangeTextTo c6tf (("x").toList) none =
      Except.ok ⟨[⟨[⟨("x").toList,
        ⟨none, none, none, none, ColorM.noColor⟩⟩]⟩], false⟩ ∧
    ColorM.noColor ≠ ColorM.rgbv 0 := by
  exact ⟨rfl, by decide⟩

/-- C6 — amended.  In `ppt_common.change_text_to`, name and size are
reapplied only when truthy and bold/italic only when not `None` (an absent
value never overwrites the new run), and the colour priority is: caller
override, else the colour reconstructed from the first non-blank run, else
*no colour is set* (there is no black default).  The black default exists
only in `create_template.change_text_to`'s colour restoration, which takes
no override. -/
theorem C6_style_reapplication :
    (∀ (tf : TextFrameM) (newText : Str)
      (fontColor : Option (Nat × Nat × Nat)) (r : RunM),
      tf.mutateRaises = false → firstTextyRun tf = some r →
      pcChangeTextTo tf newText fontColor =
        Except.ok ⟨[⟨[⟨newText,
          { name := truthyStr r.font.name
            size := truthyNat r.font.size
            bold := r.font.bold
            italic := r.font.italic
            color :=
              match fontColor with
              | some c => ColorM.rgbv (c.1 * 65536 + c.2.1 * 256 + c.2.2)
              | none =>
                match safeGetFontColor r with
                | some c => ColorM.rgbv (c.1 * 65536 + c.2.1 * 256 + c.2.2)
                | none => ColorM.noColor }⟩]⟩], false⟩) ∧
    (∀ cp : CtColorProps, cp.colorRgb.getD 0 = 0 → cp.themeColor.getD 0 = 0 →
      ctRestoreColor cp = ColorM.rgbv 0) := by
  constructor
  · intro tf newText fontColor r hmr hfr
    have hp : tf.paras.isEmpty = false := by
      cases hp : tf.paras with
      | nil => simp [firstTextyRun, hp] at hfr
      | cons _ _ => simp [hp]
    have hc : pcCaptureProps tf =
        ⟨r.font.name, r.font.size, r.font.bold, r.font.italic,
          safeGetFontColor r⟩ := by
      simp [pcCaptureProps, hfr]
    simp only [pcChangeTextTo, pcBody, hp, hmr, Bool.false_eq_true,
      if_false, hc]
    simp only [pcRestoredFont]
    cases fontColor with
    | some c => rcases c with ⟨a, b, cc⟩; rfl
    | none =>
      cases hs : safeGetFontColor r with
      | some c => rcases c with ⟨a, b, cc⟩; rfl
      | none => rfl
  · intro cp h1 h2
    simp only [ctRestoreColor, h1, h2]
    simp

/-- C6 — witness: the amended statement evaluated on a run carrying a name,
size, bold flag and RGB colour, with a caller override `(1, 2, 3)`, and on
a PRESET colour capture. -/
theorem C6_style_reapplication_witness :
    pcChangeTextTo c6wtf (("new").toList) (some (1, 2, 3)) =
      Except.ok ⟨[⟨[⟨("new").toList,
        { name := truthyStr (some (("Arial").toList))
          size := truthyNat (some 1800)
          bold := some true
          italic := none
          color := ColorM.rgbv (1 * 65536 + 2 * 256 + 3) }⟩]⟩], false⟩ ∧
    ctRestoreColor ⟨some 0, none, true⟩ = ColorM.rgbv 0 := by
  exact ⟨C6_style_reapplication.1 c6wtf (("new").toList) (some (1, 2, 3))
      ⟨("hi").toList,
        ⟨some (("Arial").toList), some 1800, some true, none,
          ColorM.rgbv 255⟩⟩ rfl rfl,
    C6_style_reapplication.2 ⟨some 0, none, true⟩ rfl rfl⟩

/-- C7 — counterexample.  `"hello"` at left 2 % and at left 3 % differ by
1 percentage point (less than the 5-point bucket), yet Python rounding of
`2/5` gives bucket 0 and of `3/5` gives bucket 1, so the fingerprints
differ. -/
theorem C7_counterexample :
    isSpecialContent c7text = false ∧
    PyQ.lt ((PyQ.ofInt 3).sub (PyQ.ofInt 2)) (PyQ.ofInt 5) = true ∧
    generatePositionKey c7text ⟨PyQ.ofInt 2, PyQ.ofInt 0⟩ ≠
      generatePositionKey c7text ⟨PyQ.ofInt 3, PyQ.ofInt 0⟩ := by
  refine ⟨by decide, by decide, by decide⟩

/-- C7 — amended.  For non-special text the fingerprint is stable exactly
under preservation of the quantized buckets: whenever both coordinates
round to the same 5-point bucket the keys coincide; a sub-bucket movement
that crosses a rounding boundary (see the counterexample) may change the
key. -/
theorem C7_bucket_stability (text : Str) (p1 p2 : Pos2)
    (hs : isSpecialContent text = false)
    (hl : pyRound (p1.leftPercent.div (PyQ.ofInt 5)) =
      pyRound (p2.leftPercent.div (PyQ.ofInt 5)))
    (ht : pyRound (p1.topPercent.div (PyQ.ofInt 5)) =
      pyRound (p2.topPercent.div (PyQ.ofInt 5))) :
    generatePositionKey text p1 = generatePositionKey text p2 := by
  simp [generatePositionKey, hs, hl, ht]

/-- C7 — witness: moving `"hello"` from left 2 % to left 2.4 % stays in
bucket 0 on both axes, and the keys agree. -/
theorem C7_bucket_stability_witness :
    generatePositionKey c7text ⟨PyQ.ofInt 2, PyQ.ofInt 0⟩ =
      generatePositionKey c7text ⟨⟨12, 5⟩, PyQ.ofInt 0⟩ :=
  C7_bucket_stability c7text ⟨PyQ.ofInt 2, PyQ.ofInt 0⟩ ⟨⟨12, 5⟩, PyQ.ofInt 0⟩
    (by decide) (by decide) (by decide)

/-- Helper: `takeWhile` passes over a block that wholly satisfies the
predicate. -/
theorem takeWhile_append_all {p : Char → Bool} (xs ys : Str)
    (h : ∀ x ∈ xs, p x = true) :
    (xs ++ ys).takeWhile p = xs ++ ys.takeWhile p := by
  induction xs with
  | nil => simp
  | cons x xs ih =>
    simp only [List.cons_append, List.takeWhile_cons,
      h x (List.mem_cons_self x xs), ih (fun a ha => h a (List.mem_cons_of_mem x ha))]
    simp

/-- Helper: the digit suffix of `base ++ '_' :: ds` is `ds` when `ds` is
all digits. -/
theorem digitSuffix_append (base ds : Str)
    (hds : ∀ c ∈ ds, pyIsDigit c = true) :
    digitSuffix (base ++ '_' :: ds) = ds := by
  simp only [digitSuffix, List.reverse_append, List.reverse_cons]
  rw [List.append_assoc, takeWhile_append_all ds.reverse (['_'] ++ base.reverse)
    (fun c hc => hds c (by simpa using hc))]
  simp only [List.singleton_append, List.takeWhile_cons,
    show pyIsDigit '_' = false from by decide]
  simp

/-- Helper: `extract_count_from_field_name` on a name with an explicit
`_<digits>` suffix strips exactly that suffix and parses the digits. -/
theorem extractCount_suffix (base ds : Str) (hne : ds ≠ [])
    (hds : ∀ c ∈ ds, pyIsDigit c = true) :
    extractCountFromFieldName (base ++ '_' :: ds) =
      (base, pyNormalize base, digitsToNat ds) := by
  have hsuf : digitSuffix (base ++ '_' :: ds) = ds := digitSuffix_append base ds hds
  have hlen : (base ++ '_' :: ds).length - ds.length = base.length + 1 := by
    simp only [List.length_append, List.length_cons]
    omega
  have htake : (base ++ '_' :: ds).take (base.length + 1) = base ++ ['_'] := by
    have : base ++ '_' :: ds = (base ++ ['_']) ++ ds := by simp
    rw [this, List.take_left' (by simp)]
  have htake2 : (base ++ '_' :: ds).take (base.length + 1 - 1) = base := by
    simp only [Nat.add_sub_cancel]
    exact List.take_left' rfl
  simp only [extractCountFromFieldName, hsuf, hlen, htake, htake2,
    List.isEmpty_iff, hne, not_false_iff, List.getLast?_concat]
  simp [hne]

/-- Helper: complete characterization of the counting loop of
`find_shape_by_text_with_count` for an arbitrary starting counter. -/
theorem fswcGo_char (fieldName normFieldName : Str) (k : Nat)
    (slide : List ShapeM) : ∀ cur,
    fswcGo slide fieldName normFieldName k cur =
      if cur < k ∧ k ≤ cur +
          (slide.filter (fun s => shapeMatchText s fieldName normFieldName)).length
      then ((slide.filter (fun s => shapeMatchText s fieldName normFieldName))[k - cur - 1]?, k)
      else (none, cur +
        (slide.filter (fun s => shapeMatchText s fieldName normFieldName)).length) := by
  induction slide with
  | nil =>
    intro cur
    simp only [fswcGo, List.filter_nil, List.length_nil, Nat.add_zero]
    rw [if_neg (by omega)]
  | cons s rest ih =>
    intro cur
    by_cases hm : shapeMatchText s fieldName normFieldName
    · have hf : (s :: rest).filter (fun s => shapeMatchText s fieldName normFieldName) =
          s :: rest.filter (fun s => shapeMatchText s fieldName normFieldName) := by
        simp [hm]
      rw [hf]
      simp only [fswcGo, hm, if_true, List.length_cons]
      by_cases he : cur + 1 = k
      · rw [if_pos he, if_pos (by omega)]
        have h0 : k - cur - 1 = 0 := by omega
        rw [h0]
        simp [he]
      · rw [if_neg he, ih (cur + 1)]
        by_cases h1 : cur + 1 < k ∧ k ≤ cur + 1 +
            (rest.filter (fun s => shapeMatchText s fieldName normFieldName)).length
        · rw [if_pos h1, if_pos (by omega)]
          have hk : k - cur - 1 = (k - (cur + 1) - 1) + 1 := by omega
          rw [hk, List.getElem?_cons_succ]
        · rw [if_neg h1, if_neg (by omega)]
          have harith : cur + 1 +
              (rest.filter (fun s => shapeMatchText s fieldName normFieldName)).length
              = cur +
              ((rest.filter (fun s => shapeMatchText s fieldName normFieldName)).length + 1) := by
            omega
          rw [harith]
    · have hf : (s :: rest).filter (fun s => shapeMatchText s fieldName normFieldName) =
          rest.filter (fun s => shapeMatchText s fieldName normFieldName) := by
        simp [hm]
      rw [hf]
      simp only [fswcGo, hm, if_false]
      exact ih cur

/-- C1 — confirmed.  Resolution strips a trailing `_<n>` ordinal suffix
(expected occurrence defaulting to 1 without one), then
`find_shape_by_text_with_count` walks the shapes in document order counting
the non-empty-text matches (normalized or raw case-insensitive): for
`1 ≤ k ≤ N` it returns the k-th matching shape together with `k`, and with
fewer than `k` matches it returns no element together with the total match
count `N`. -/
theorem C1_ordinal_resolution :
    (∀ fieldName : Str, endsWithOrdinalSuffix fieldName = false →
      extractCountFromFieldName fieldName =
        (fieldName, pyNormalize fieldName, 1)) ∧
    (∀ base ds : Str, ds ≠ [] → (∀ c ∈ ds, pyIsDigit c = true) →
      extractCountFromFieldName (base ++ '_' :: ds) =
        (base, pyNormalize base, digitsToNat ds)) ∧
    (∀ (slide : List ShapeM) (fieldName normFieldName : Str) (k : Nat),
      findShapeByTextWithCount slide fieldName normFieldName k =
        if 1 ≤ k ∧ k ≤ (slide.filter
            (fun s => shapeMatchText s fieldName normFieldName)).length
        then ((slide.filter
            (fun s => shapeMatchText s fieldName normFieldName))[k - 1]?, k)
        else (none, (slide.filter
            (fun s => shapeMatchText s fieldName normFieldName)).length)) := by
  refine ⟨?_, ?_, ?_⟩
  · intro fieldName h
    simp only [endsWithOrdinalSuffix] at h
    simp only [extractCountFromFieldName, h]
    simp
  · intro base ds hne hds
    exact extractCount_suffix base ds hne hds
  · intro slide fieldName normFieldName k
    rw [findShapeByTextWithCount, fswcGo_char]
    simp only [Nat.zero_add, Nat.sub_zero]
    rfl

/-- C1 — witness: a suffix-free name keeps count 1; `"title" ++ "_2"`
strips to `"title"` with count 2; a one-shape slide resolves ordinal 1 to
that shape with count 1. -/
theorem C1_ordinal_resolution_witness :
    extractCountFromFieldName (("title").toList) =
      (("title").toList, ("title").toList, 1) ∧
    extractCountFromFieldName (("title").toList ++ '_' :: ("2").toList) =
      (("title").toList, ("title").toList, 2) := by
  exact ⟨C1_ordinal_resolution.1 (("title").toList) (by decide),
    C1_ordinal_resolution.2.1 (("title").toList) (("2").toList)
      (by decide) (by decide)⟩

/-- C8 — confirmed.  `is_special_content` is false on a string that is
empty after trimming, and otherwise true exactly when the trimmed string is
digits-only, or shorter than 3 characters, or consists entirely of
punctuation/symbol characters and whitespace, or contains no alphabetic
character of any supported script (Latin via `isalpha`, plus the Korean
ranges). -/
theorem C8_special_content_classification (text : Str) :
    isSpecialContent text = true ↔
      (pyStrip text ≠ [] ∧
        ((∀ c ∈ pyStrip text, pyIsDigit c = true) ∨
         (pyStrip text).length < 3 ∨
         (∀ c ∈ pyStrip text, c ∈ specialChars ∨ pyIsSpace c = true) ∨
         ¬ ∃ c ∈ pyStrip text, (pyIsAlpha c || isHangul c) = true)) := by
  simp only [isSpecialContent, pyStrIsDigit]
  split_ifs with h1 h2 h3 h4 h5 <;>
    simp_all [List.isEmpty_iff, List.all_eq_true, List.any_eq_true]

/-- Helper: Python index `-1` resolves to the last position of a non-empty
list. -/
theorem pyResolveIdx_neg_one (n : Nat) (h : 1 ≤ n) :
    pyResolveIdx n (-1) = some (n - 1) := by
  simp only [pyResolveIdx]
  rw [if_neg (by omega), if_pos (by omega)]
  rfl

/-- Helper: setting at the length of the front block replaces the appended
singleton. -/
theorem set_concat_length {α : Type} (l : List α) (a y : α) :
    (l ++ [a]).set l.length y = l ++ [y] := by
  induction l with
  | nil => rfl
  | cons x xs ih => simp [List.set, ih]

/-- C9 — confirmed.  With both `row` and `col` keys missing from
`table_info`, `update_table_cell` defaults both coordinates to 0, the
dimension guard `rows.count ≥ 0 ∧ columns.count ≥ 0` is vacuous, and the
lookup `cell(row-1, col-1)` resolves Python index `-1` to the last row and
last column — whose cell is silently rewritten (and success reported) when
its text matches, instead of the request being rejected. -/
theorem C9_default_zero_indices (d : Dims)
    (rpre : List (List TextFrameM)) (cpre : List TextFrameM)
    (lastCell : TextFrameM) (fieldName content : Str)
    (hne : tfJoinedText lastCell ≠ [])
    (hmatch : pyNormalize (tfJoinedText lastCell) = pyNormalize fieldName ∨
      pyLower (tfJoinedText lastCell) = pyLower fieldName) :
    (∀ m, 1 ≤ m → pyResolveIdx m (-1) = some (m - 1)) ∧
    updateTableCell [ShapeM.table d (rpre ++ [cpre ++ [lastCell]])]
        fieldName content ⟨none, none⟩ (pyNormalize fieldName) =
      (true, [ShapeM.table d
        (rpre ++ [cpre ++ [ctChangeText lastCell content]])]) := by
  refine ⟨fun m hm => pyResolveIdx_neg_one m hm, ?_⟩
  have hrows : (rpre ++ [cpre ++ [lastCell]]).length = rpre.length + 1 := by
    simp
  have hcells : (cpre ++ [lastCell]).length = cpre.length + 1 := by simp
  simp only [updateTableCell, Option.getD_none, updateTableCellGo,
    tableLoopBody]
  rw [if_pos (by constructor <;> omega)]
  rw [show (0 : Int) - 1 = -1 from rfl, hrows,
    pyResolveIdx_neg_one (rpre.length + 1) (by omega)]
  simp only [Nat.add_sub_cancel, List.get?_eq_getElem?,
    List.getElem?_concat_length]
  rw [hcells, pyResolveIdx_neg_one (cpre.length + 1) (by omega)]
  simp only [Nat.add_sub_cancel, List.get?_eq_getElem?,
    List.getElem?_concat_length]
  rw [if_pos (by
    simp only [Bool.and_eq_true, Bool.not_eq_true', List.isEmpty_iff,
      Bool.or_eq_true, decide_eq_true_eq]
    exact ⟨by simpa using hne, hmatch⟩)]
  rw [set_concat_length, set_concat_length]

/-- C9 — witness: a field `"total"` with empty `table_info` over a 2×2
table rewrites the bottom-right cell (index `-1` on both axes) and reports
success. -/
theorem C9_default_zero_indices_witness :
    pyResolveIdx 2 (-1) = some 1 ∧
    updateTableCell [ShapeM.table bigDims c9rows] (("total").toList)
        (("99").toList) ⟨none, none⟩ (pyNormalize (("total").toList)) =
      (true, [ShapeM.table bigDims
        [[mkTf (("a").toList), mkTf (("b").toList)],
         [mkTf (("c").toList),
          ctChangeText (mkTf (("total").toList)) (("99").toList)]]]) := by
  have h := C9_default_zero_indices bigDims
    [[mkTf (("a").toList), mkTf (("b").toList)]] [mkTf (("c").toList)]
    (mkTf (("total").toList)) (("total").toList) (("99").toList)
    (by decide) (Or.inl rfl)
  exact ⟨h.1 2 (by omega), h.2⟩

/-- Helper: length of one inner Levenshtein row step. -/
theorem levStep_length (c1 : Char) : ∀ (cs : Str) (seg : List Nat)
    (last : Nat), (levStep c1 seg last cs).length = min cs.length (seg.length - 1) := by
  intro cs
  induction cs with
  | nil => intro seg last; cases seg with
    | nil => rfl
    | cons p0 tail => cases tail <;> rfl
  | cons c2 cs ih =>
    intro seg last
    match seg with
    | [] => rfl
    | [p0] => rfl
    | p0 :: p1 :: ps =>
      simp only [levStep, List.length_cons, ih]
      omega

/-- Helper: every entry of the inner row step is bounded by
`max (i+1) (column index)`, given the same bound on the previous row. -/
theorem levStep_bound (c1 : Char) : ∀ (cs : Str) (seg : List Nat)
    (last i j0 : Nat),
    (∀ t v, seg.get? t = some v → v ≤ max i (j0 + t)) →
    last ≤ max (i + 1) j0 →
    ∀ t v, (levStep c1 seg last cs).get? t = some v →
      v ≤ max (i + 1) (j0 + t + 1) := by
  intro cs
  induction cs with
  | nil =>
    intro seg last i j0 hseg hlast t v hv
    cases seg with
    | nil => simp [levStep] at hv
    | cons p0 tail => cases tail <;> simp [levStep] at hv
  | cons c2 cs ih =>
    intro seg last i j0 hseg hlast t v hv
    match seg, hv with
    | [], hv => simp [levStep] at hv
    | [p0], hv => simp [levStep] at hv
    | p0 :: p1 :: ps, hv =>
      rw [levStep] at hv
      have hp0 : p0 ≤ max i j0 := by
        have := hseg 0 p0 rfl
        omega
      have hd : (if c1 = c2 then 0 else 1) ≤ 1 := by split <;> omega
      have hv0 : min (p1 + 1) (min (last + 1)
          (p0 + (if c1 = c2 then 0 else 1))) ≤ max (i + 1) (j0 + 1) := by
        have h1 : min (p1 + 1) (min (last + 1)
            (p0 + (if c1 = c2 then 0 else 1))) ≤
            p0 + (if c1 = c2 then 0 else 1) :=
          le_trans (Nat.min_le_right _ _) (Nat.min_le_right _ _)
        omega
      cases t with
      | zero =>
        simp only [List.get?_cons_zero, Option.some.injEq] at hv
        omega
      | succ t' =>
        simp only [List.get?_cons_succ] at hv
        have hseg' : ∀ t v, (p1 :: ps).get? t = some v →
            v ≤ max i ((j0 + 1) + t) := by
          intro t v h
          have := hseg (t + 1) v (by simpa using h)
          omega
        have := ih (p1 :: ps)
          (min (p1 + 1) (min (last + 1) (p0 + (if c1 = c2 then 0 else 1))))
          i (j0 + 1) hseg' hv0 t' v hv
        omega

/-- Helper: every entry of every row produced by the outer Levenshtein loop
is bounded by `max (i + consumed length) (column index)`. -/
theorem levOuter_bound (s2 : Str) : ∀ (cs1 : Str) (prev : List Nat)
    (i : Nat),
    (∀ j v, prev.get? j = some v → v ≤ max i j) →
    ∀ j v, (levOuter s2 prev i cs1).get? j = some v →
      v ≤ max (i + cs1.length) j := by
  intro cs1
  induction cs1 with
  | nil =>
    intro prev i hprev j v hv
    rw [levOuter] at hv
    have := hprev j v hv
    simpa using this
  | cons c1 cs ih =>
    intro prev i hprev j v hv
    rw [levOuter] at hv
    have hprev' : ∀ j v,
        ((i + 1) :: levStep c1 prev (i + 1) s2).get? j = some v →
        v ≤ max (i + 1) j := by
      intro j v h
      cases j with
      | zero =>
        simp only [List.get?_cons_zero, Option.some.injEq] at h
        omega
      | succ t =>
        simp only [List.get?_cons_succ] at h
        have hseg : ∀ t v, prev.get? t = some v → v ≤ max i (0 + t) := by
          intro t v hh
          have := hprev t v hh
          omega
        have := levStep_bound c1 s2 prev (i + 1) i 0 hseg (by omega) t v h
        omega
    have := ih ((i + 1) :: levStep c1 prev (i + 1) s2) (i + 1) hprev' j v hv
    have hlen : (c1 :: cs).length = cs.length + 1 := rfl
    omega

/-- Helper: the outer loop preserves the row length `|s2| + 1`. -/
theorem levOuter_length (s2 : Str) : ∀ (cs1 : Str) (prev : List Nat)
    (i : Nat), prev.length = s2.length + 1 →
    (levOuter s2 prev i cs1).length = s2.length + 1 := by
  intro cs1
  induction cs1 with
  | nil => intro prev i h; rw [levOuter]; exact h
  | cons c1 cs ih =>
    intro prev i h
    rw [levOuter]
    refine ih _ _ ?_
    simp only [List.length_cons, levStep_length]
    omega

/-- Helper: `levCore s1 s2 ≤ |s1|` when `|s2| ≤ |s1|`. -/
theorem levCore_le (s1 s2 : Str) (h : s2.length ≤ s1.length) :
    levCore s1 s2 ≤ s1.length := by
  rw [levCore]
  split_ifs with h0
  · exact le_refl _
  · have hlen : (levOuter s2 (List.range (s2.length + 1)) 0 s1).length =
        s2.length + 1 :=
      levOuter_length s2 s1 _ 0 (by simp)
    have hbound := levOuter_bound s2 s1 (List.range (s2.length + 1)) 0
      (by
        intro j v hv
        have hj : j < s2.length + 1 := by
          by_contra hc
          rw [List.get?_eq_none.2 (by simpa using Nat.le_of_not_lt hc)] at hv
          exact Option.noConfusion hv
        rw [List.get?_range hj] at hv
        have : v = j := by exact Option.some.inj hv.symm
        omega)
    rw [List.getLast?_eq_get?]
    cases hv : (levOuter s2 (List.range (s2.length + 1)) 0 s1).get?
        ((levOuter s2 (List.range (s2.length + 1)) 0 s1).length - 1) with
    | none => simp
    | some v =>
      have := hbound _ v hv
      rw [hlen] at this
      simp only [Option.getD_some]
      omega

/-- Helper: the source's Levenshtein distance is bounded by the longer
length. -/
theorem levenshteinDistance_le_max (s1 s2 : Str) :
    levenshteinDistance s1 s2 ≤ max s1.length s2.length := by
  rw [levenshteinDistance]
  split_ifs with h
  · exact le_trans (levCore_le s2 s1 (by omega)) (by omega)
  · exact le_trans (levCore_le s1 s2 (by omega)) (by omega)

/-- Helper: a first-success scan over an append whose front block fails. -/
theorem findSome?_append_none {α β : Type} (f : α → Option β)
    (l1 l2 : List α) (h : l1.findSome? f = none) :
    (l1 ++ l2).findSome? f = l2.findSome? f := by
  induction l1 with
  | nil => rfl
  | cons a l ih =>
    rw [List.findSome?_cons] at h
    rw [List.cons_append, List.findSome?_cons]
    cases hfa : f a with
    | some b => rw [hfa] at h; exact Option.noConfusion h
    | none => rw [hfa] at h; exact ih h

/-- C10 — confirmed.  The Levenshtein distance computed by the tag tier is
bounded by the longer string, so for normalized texts of length ≤ 3 on both
sides it is necessarily ≤ 3; consequently, once the exact pass fails and
the earlier shapes of the fuzzy pass fail, the first small short-text
shape in document order is returned by `find_tag_element` regardless of
its actual content. -/
theorem C10_short_text_tag_fallback :
    (∀ s1 s2 : Str, s1.length ≤ 3 → s2.length ≤ 3 →
      levenshteinDistance s1 s2 ≤ 3) ∧
    (∀ (pre post : List ShapeM) (d : Dims) (tf : TextFrameM)
      (normFieldName : Str) (sw sh : PyQ),
      (tagExactLoop (pre ++ ShapeM.textbox d tf :: post)
        normFieldName).isNone = true →
      (tagFuzzyLoop pre normFieldName sw sh).isNone = true →
      tfJoinedText tf ≠ [] →
      (tfJoinedText tf).length ≤ 15 →
      ((d.width.div sw).mul (PyQ.ofInt 100)).le (PyQ.ofInt 20) = true →
      ((d.height.div sh).mul (PyQ.ofInt 100)).le (PyQ.ofInt 10) = true →
      (pyNormalize (tfJoinedText tf)).length ≤ 3 →
      normFieldName.length ≤ 3 →
      findTagElement (pre ++ ShapeM.textbox d tf :: post) normFieldName
          sw sh = some (ShapeM.textbox d tf)) := by
  constructor
  · intro s1 s2 h1 h2
    have := levenshteinDistance_le_max s1 s2
    omega
  · intro pre post d tf normFieldName sw sh hExact hFuzzyPre hne hlen15
      hw hh hns hnf
    rw [findTagElement]
    cases hE : tagExactLoop (pre ++ ShapeM.textbox d tf :: post)
        normFieldName with
    | some s => rw [hE] at hExact; exact Bool.noConfusion hExact
    | none =>
      have hpre : pre.findSome? (tagFuzzyBody normFieldName sw sh) = none := by
        rw [tagFuzzyLoop] at hFuzzyPre
        exact Option.eq_none_of_isNone hFuzzyPre
      have hbody : tagFuzzyBody normFieldName sw sh (ShapeM.textbox d tf) =
          some (ShapeM.textbox d tf) := by
        have hempty : (tfJoinedText tf).isEmpty = false := by
          simpa [List.isEmpty_iff] using hne
        have hgt : ¬ ((tfJoinedText tf).length > 15) := by omega
        have hlev : levenshteinDistance (pyNormalize (tfJoinedText tf))
            normFieldName ≤ 3 := by
          have := levenshteinDistance_le_max (pyNormalize (tfJoinedText tf))
            normFieldName
          have hmx : max (pyNormalize (tfJoinedText tf)).length
              normFieldName.length ≤ 3 := by
            rw [Nat.max_le]
            exact ⟨hns, hnf⟩
          omega
        have h10a : (pyNormalize (tfJoinedText tf)).length ≤ 10 := by omega
        have h10b : normFieldName.length ≤ 10 := by omega
        rw [tagFuzzyBody]
        simp only [ShapeM.textFrame, ShapeM.dims]
        rw [if_neg (by simp [hempty, hgt])]
        by_cases hpat : (tagPatternMatch (pyNormalize (tfJoinedText tf)) ||
            tagPatternMatch normFieldName) = true
        · rw [if_pos (by simp only [hw, hh, hpat, Bool.and_true,
            Bool.true_and, decide_eq_true_eq])]
        · have hpat' : (tagPatternMatch (pyNormalize (tfJoinedText tf)) ||
              tagPatternMatch normFieldName) = false := by
            revert hpat
            cases tagPatternMatch (pyNormalize (tfJoinedText tf)) ||
              tagPatternMatch normFieldName <;> simp
          rw [if_neg (by simp [hpat'])]
          rw [if_pos (by simp only [hw, hh, Bool.true_and, Bool.and_eq_true,
            decide_eq_true_eq]; exact ⟨⟨h10a, h10b⟩, hlev⟩)]
      rw [tagFuzzyLoop, findSome?_append_none _ _ _ hpre,
        List.findSome?_cons, hbody]

/-- C10 — witness: field `"ab"` against a lone small shape reading
`"xyz"`: the distance bound holds and the fallback returns the shape even
though the texts share no character. -/
theorem C10_short_text_tag_fallback_witness :
    levenshteinDistance (("ab").toList) (("xyz").toList) ≤ 3 ∧
    findTagElement [c10shape] (("ab").toList) (PyQ.ofInt 100)
      (PyQ.ofInt 100) = some c10shape := by
  exact ⟨C10_short_text_tag_fallback.1 (("ab").toList) (("xyz").toList)
      (by decide) (by decide),
    C10_short_text_tag_fallback.2 [] [] smallDims (mkTf (("xyz").toList))
      (("ab").toList) (PyQ.ofInt 100) (PyQ.ofInt 100) (by decide)
      (by decide) (by decide) (by decide) (by decide) (by decide)
      (by decide) (by decide)⟩

/-- C8 — witness: `"42"` is classified special via the equivalence, and
`"hello"` is not. -/
theorem C8_special_content_classification_witness :
    isSpecialContent (("42").toList) = true ∧
    ¬ isSpecialContent (("hello").toList) = true := by
  constructor
  · exact (C8_special_content_classification (("42").toList)).mpr (by decide)
  · intro h
    have := (C8_special_content_classification (("hello").toList)).mp h
    revert this
    decide
